import Mathlib

set_option maxHeartbeats 2000000

/-!
Verification of the job-orchestration client of the Timetable-Scheduler
frontend (src/services/api.js together with the progress callback in
src/components/TimetableGenerator.js), as a shallow embedding.

JavaScript values that flow through the orchestration code are modelled by
the type JVal below; absent object fields are modelled by Option; JS
truthiness and the or-operator are modelled explicitly.
-/

/-- Model of a JavaScript value as it occurs in the API responses handled by
the client: null, booleans, numbers (the code only compares and defaults
them, so integers suffice), strings, and arrays. -/
inductive JVal where
  | null : JVal
  | bool : Bool → JVal
  | num  : Int → JVal
  | str  : String → JVal
  | arr  : List JVal → JVal

/-- JavaScript strict equality of a value against a string literal, as in
the comparison of a normalized status against a string: true exactly when
the value is that string. -/
def isStr : Option JVal → String → Bool
  | some (.str t), s => t = s
  | _, _ => false

/-- JavaScript truthiness of a value. -/
def jsTruthy : JVal → Bool
  | .null => false
  | .bool b => b
  | .num n => n ≠ 0
  | .str s => s ≠ ""
  | .arr _ => true

/-- Truthiness of a possibly-absent value (undefined is falsy). -/
def optTruthy : Option JVal → Bool
  | some v => jsTruthy v
  | none => false

/-- The JavaScript or-operator on possibly-absent values: the left operand
if it is truthy, otherwise the right operand as it stands. -/
def jsOr (a b : Option JVal) : Option JVal :=
  if optTruthy a then a else b

/-- JavaScript String(v) conversion, used when an error value is turned
into an Error message. -/
def jvalToString : JVal → String
  | .null => "null"
  | .bool b => if b then "true" else "false"
  | .num n => toString n
  | .str s => s
  | .arr xs => String.intercalate "," (xs.attach.map (fun x => jvalToString x.1))
decreasing_by
  have := List.sizeOf_lt_of_mem x.2
  simp_wf
  omega

/-- JavaScript s.includes(pat): case-sensitive substring test. -/
def strIncludes (s pat : String) : Bool :=
  decide (pat.data <:+: s.data)

/-- JavaScript s.toLowerCase() on the character list of the string (the
messages the code matches on are plain ASCII). -/
def lowerString (s : String) : String :=
  ⟨s.data.map Char.toLower⟩

/-! ## Retry wrapper (makeRequestWithRetry, api.js lines 142-159) -/

/-- Outcome of one invocation of a zero-argument request function: it
either resolves with a value or rejects with an error message. -/
inductive ReqOutcome (α : Type) where
  | success (v : α)
  | failure (msg : String)
deriving DecidableEq, Repr

/-- Final outcome of the retry wrapper: the promise resolves (possibly with
undefined, modelled as none) or rejects with an error message. -/
inductive RetryOutcome (α : Type) where
  | resolved (v : Option α)
  | rejected (msg : String)
deriving DecidableEq, Repr

/-- Trace of one run of the retry wrapper: how many times the request
function was invoked, the list of waits (in milliseconds) performed between
successive attempts, and the final outcome. -/
structure RetryTrace (α : Type) where
  invocations : Nat
  delays : List Nat
  outcome : RetryOutcome α
deriving DecidableEq, Repr

/-- The transient-connectivity test of the retry wrapper:
msg.toLowerCase() contains one of the substrings cors, backend, network. -/
def transientMsg (msg : String) : Bool :=
  strIncludes (lowerString msg) "cors" || strIncludes (lowerString msg) "backend" ||
    strIncludes (lowerString msg) "network"

/-- The loop of makeRequestWithRetry, at loop index i. The i-th invocation
of the request function is given by outcomes i. Mirrors:
for (let i = 0; i < retries; i++) { try { return await requestFn(); }
catch (error) { if (i === retries - 1) throw error; if (transient) wait
1000*(i+1) else throw error; } } -/
def retryGo {α : Type} (outcomes : Nat → ReqOutcome α) (retries : Int)
    (i : Nat) : RetryTrace α :=
  if _h : (i : Int) < retries then
    match outcomes i with
    | .success v => ⟨i + 1, [], .resolved (some v)⟩
    | .failure msg =>
      if (i : Int) = retries - 1 then ⟨i + 1, [], .rejected msg⟩
      else if transientMsg msg then
        let rest := retryGo outcomes retries (i + 1)
        ⟨rest.invocations, 1000 * (i + 1) :: rest.delays, rest.outcome⟩
      else ⟨i + 1, [], .rejected msg⟩
  else ⟨i, [], .resolved none⟩
termination_by (retries - (i : Int)).toNat
decreasing_by omega

/-- makeRequestWithRetry(requestFn, retries = 3): run the retry loop from
index 0. The default budget is 3. -/
def makeRequestWithRetry {α : Type} (outcomes : Nat → ReqOutcome α)
    (retries : Int := 3) : RetryTrace α :=
  retryGo outcomes retries 0

/-! ## Upload operation (uploadFile, api.js lines 166-189, and the
upload-id extraction in TimetableGenerator.handleGenerate) -/

/-- Nested meta object that a server response might carry. The client
never reads it inside uploadFile; the UI reads the same three keys from the
meta field of the value uploadFile returns. -/
structure MetaKeys where
  upload_id : Option JVal := none
  uploadId : Option JVal := none
  id : Option JVal := none

/-- Shape of the raw upload response body, with the fields the surrounding
code mentions. Fields not read by uploadFile (fileId, meta) are part of the
shape so that claims about them can be stated. -/
structure UploadData where
  upload_id : Option JVal := none
  uploadId : Option JVal := none
  id : Option JVal := none
  fileId : Option JVal := none
  meta : Option MetaKeys := none

/-- Value returned by a successful uploadFile call:
return \x7b uploadId, meta: data \x7d. -/
structure UploadOk where
  uploadId : JVal
  meta : UploadData

/-- uploadFile result extraction:
const uploadId = data.upload_id || data.uploadId || data.id;
if (!uploadId) throw new Error('upload_id not returned by server');
and the catch clause rewraps the message as
'File upload failed: ' + message. -/
def uploadFile (data : UploadData) : Except String UploadOk :=
  let uploadId := jsOr (jsOr data.upload_id data.uploadId) data.id
  match uploadId with
  | some v =>
    if jsTruthy v then .ok ⟨v, data⟩
    else .error "File upload failed: upload_id not returned by server"
  | none => .error "File upload failed: upload_id not returned by server"

/-- The upload-id re-extraction in TimetableGenerator.handleGenerate,
applied to the object uploadFile resolves with. On that object the keys
upload_id, fileId and id are absent (the wrapper has only uploadId and
meta), so the corresponding disjuncts of the or-chain are undefined:
uploadResponse?.uploadId || uploadResponse?.upload_id ||
uploadResponse?.fileId || uploadResponse?.id ||
(uploadResponse?.meta && (meta.upload_id || meta.uploadId || meta.id)). -/
def extractCurrentUploadId (r : UploadOk) : Option JVal :=
  jsOr (jsOr (jsOr (jsOr (some r.uploadId) none) none) none)
    (jsOr (jsOr r.meta.upload_id r.meta.uploadId) r.meta.id)

/-! ## Completed-result merge (pollForCompletion, api.js lines 285-304) -/

/-- A timetable entry is an arbitrary JS object, modelled as its ordered
field list. -/
abbrev JObj := List (String × JVal)

/-- Field read on a JS object. -/
def getField : JObj → String → Option JVal
  | [], _ => none
  | (k', v) :: rest, k => if k' = k then some v else getField rest k

/-- The object spread with one overriding key,
\x7b ...t, rows: v \x7d: every field of t is kept in order, with the value
at key k replaced when present, else the new field is appended. -/
def spreadSet (o : JObj) (k : String) (v : JVal) : JObj :=
  if (getField o k).isSome then
    o.map (fun p => if p.1 = k then (k, v) else p)
  else o ++ [(k, v)]

/-- An entry of the parsed_timetables collection: the code only reads its
rows field. -/
structure ParsedEntry where
  rows : JVal

/-- Shape of the result object inside a completed status response. The
elements of parsed_timetables are optional: none models a null or
undefined array element, which the code guards with a truthiness test. -/
structure ResultObj where
  timetables : Option (List JObj) := none
  timetables_raw : Option (List JObj) := none
  parsed_timetables : Option (List (Option ParsedEntry)) := none

/-- The rows value attached to the timetable at index i:
const parsed = result.parsed_timetables[index];
rows: parsed ? parsed.rows : []. -/
def rowsAt (P : List (Option ParsedEntry)) (i : Nat) : JVal :=
  match P.get? i with
  | some (some p) => p.rows
  | _ => JVal.arr []

/-- result.timetables.map((timetable, index) => (\x7b ...timetable,
rows: parsed ? parsed.rows : [] \x7d)), unrolled with the running index. -/
def mergeRows (P : List (Option ParsedEntry)) : Nat → List JObj → List JObj
  | _, [] => []
  | i, t :: ts => spreadSet t "rows" (rowsAt P i) :: mergeRows P (i + 1) ts

/-- The completed-result merge rule:
if (!result.timetables && result.timetables_raw)
  result.timetables = result.timetables_raw;
if (result.parsed_timetables && result.timetables)
  result.timetables = result.timetables.map(...).
An array field is truthy exactly when it is present. -/
def mergeResult (r : ResultObj) : ResultObj :=
  let r1 := if r.timetables.isNone && r.timetables_raw.isSome then
    { r with timetables := r.timetables_raw } else r
  match r1.parsed_timetables, r1.timetables with
  | some P, some T => { r1 with timetables := some (mergeRows P 0 T) }
  | _, _ => r1

/-! ## Status normalization (pollForCompletion, api.js lines 255-275) -/

/-- Shape of a raw status response body, with the fields the normalization
reads. The fields named State and Error mirror the alternative
capitalizations the code accepts. -/
structure StatusData where
  status : Option JVal := none
  State : Option JVal := none
  state : Option JVal := none
  progress : Option JVal := none
  message : Option String := none
  result : Option ResultObj := none
  error : Option JVal := none
  Error : Option JVal := none

/-- The normalized status record built by the poller. -/
structure NormStatus where
  status : Option JVal
  progress : Int
  message : String
  result : Option ResultObj
  error : Option JVal

/-- The normalization step of pollForCompletion:
status: statusData.status || statusData.State || statusData.state,
progress: typeof statusData.progress === 'number' ? statusData.progress : 0,
message: statusData.message || '',
result: statusData.result,
error: statusData.error || statusData.Error,
followed by the three default-inference steps: a truthy result infers
completed, else a truthy error infers error, else processing. -/
def normalizeStatus (d : StatusData) : NormStatus :=
  let status0 := jsOr (jsOr d.status d.State) d.state
  let progress : Int := match d.progress with
    | some (.num n) => n
    | _ => 0
  let message := match d.message with
    | some s => if s = "" then "" else s
    | none => ""
  let error0 := jsOr d.error d.Error
  let status1 := if !optTruthy status0 && d.result.isSome then
    some (JVal.str "completed") else status0
  let status2 := if !optTruthy status1 && optTruthy error0 then
    some (JVal.str "error") else status1
  let status3 := if !optTruthy status2 then
    some (JVal.str "processing") else status2
  ⟨status3, progress, message, d.result, error0⟩

/-! ## Polling loop (pollForCompletion, api.js lines 242-331) -/

/-- What one status poll produces after its own internal retries: either a
response body or a thrown error with a message. -/
inductive PollResponse where
  | ok (d : StatusData)
  | err (msg : String)

/-- One observer invocation: progressCallback(\x7b percentage, message \x7d). -/
structure ProgressUpdate where
  percentage : Int
  message : String
deriving DecidableEq, Repr

/-- Final outcome of the polling promise. -/
inductive PollerOutcome where
  | resolved (r : Option ResultObj)
  | rejected (msg : String)

/-- Trace of one polling loop: the number of polls issued, the observer
invocations in order, and the final outcome. -/
structure PollerRun where
  polls : Nat
  callbacks : List ProgressUpdate
  outcome : PollerOutcome

/-- The poll ceiling: const maxAttempts = 120. -/
def maxAttempts : Nat := 120

/-- The observer invocation performed on a poll of response d:
progressCallback(\x7b percentage: normalized.progress,
message: normalized.message || 'Processing...' \x7d). -/
def pollCall (d : StatusData) : ProgressUpdate :=
  let n := normalizeStatus d
  ⟨n.progress, if n.message = "" then "Processing..." else n.message⟩

/-- The rejection message on an error status:
reject(new Error(normalized.error || 'Generation failed')). -/
def rejectErrMsg (e : Option JVal) : String :=
  match e with
  | some v => if jsTruthy v then jvalToString v else "Generation failed"
  | none => "Generation failed"

/-- The rejection message used on poll timeout. -/
def timeoutMsg : String := "Generation timeout - please try again"

/-- The rejection message used when a poll itself throws with a message
containing the substring CORS. -/
def corsRejectMsg : String :=
  "CORS policy is blocking requests to the backend. Please check the server configuration."

/-- The checkStatus closure of pollForCompletion, entered with the number
of polls already made. Each entry increments attempts, polls, normalizes,
always invokes the observer, then resolves on a completed status (after
merging and a final 100-percent observer call), rejects on an error
status, rejects with the timeout message when attempts has reached
maxAttempts, and otherwise schedules itself again. A thrown poll is caught:
a message containing CORS (case-sensitive) is replaced by a dedicated
message, any other error rejects as-is. -/
def checkStatus (resp : Nat → PollResponse) (attempts : Nat) : PollerRun :=
  match resp attempts with
  | .err m =>
    ⟨attempts + 1, [], .rejected (if strIncludes m "CORS" then corsRejectMsg else m)⟩
  | .ok d =>
    let n := normalizeStatus d
    if isStr n.status "completed" then
      ⟨attempts + 1, [pollCall d, ⟨100, "Completed"⟩],
        .resolved (n.result.map mergeResult)⟩
    else if isStr n.status "error" then
      ⟨attempts + 1, [pollCall d], .rejected (rejectErrMsg n.error)⟩
    else if attempts + 1 ≥ maxAttempts then
      ⟨attempts + 1, [pollCall d], .rejected timeoutMsg⟩
    else
      let rest := checkStatus resp (attempts + 1)
      ⟨rest.polls, pollCall d :: rest.callbacks, rest.outcome⟩
termination_by maxAttempts - attempts
decreasing_by simp [maxAttempts] at *; omega

/-- pollForCompletion: start the polling loop with attempts = 0. The
responses of successive polls are given by resp. -/
def pollForCompletion (resp : Nat → PollResponse) : PollerRun :=
  checkStatus resp 0

/-! ## Export operation (downloadTimetable, api.js lines 339-375) -/

/-- The format value sent to the export endpoint:
format: format.toLowerCase(). -/
def exportRequestFormat (format : String) : String := lowerString format

/-- The synthesized download filename:
timetable_TIMESTAMP.EXT where EXT is pdf exactly when the raw format value
is the string pdf, else xlsx:
(format === 'pdf' ? 'pdf' : 'xlsx'). -/
def exportFilename (timestamp format : String) : String :=
  "timetable_" ++ timestamp ++ "." ++ (if format = "pdf" then "pdf" else "xlsx")

/-! ## UI progress callback (TimetableGenerator.js lines 52-64) -/

/-- The progress value the UI progress callback stores:
Math.min(Math.max(pct, 30), 100). -/
def uiStoredProgress (pct : Int) : Int := min (max pct 30) 100

/-! ## Auxiliary predicates and reference definitions -/

/-- A poll response that succeeds and normalizes to a non-terminal status:
neither the completed nor the error comparison of the poller matches. -/
def nonTerminalOk (r : PollResponse) : Prop :=
  ∃ d, r = .ok d ∧ isStr (normalizeStatus d).status "completed" = false ∧
    isStr (normalizeStatus d).status "error" = false

/-- Ordered fallback over a fixed key list: the first truthy value, if
any. Used by the reference normalization below. -/
def firstTruthy : List (Option JVal) → Option JVal
  | [] => none
  | x :: xs => if optTruthy x then x else firstTruthy xs

/-- Modelled from the amended C5 wording: the normalized status value is
the first truthy of the keys status, State, state; when none is truthy, a
present result infers completed, else a truthy error (read as the first
truthy of the keys error, Error) infers error, else processing. -/
def refNormStatus (d : StatusData) : JVal :=
  match firstTruthy [d.status, d.State, d.state] with
  | some v => v
  | none =>
    if d.result.isSome then .str "completed"
    else if optTruthy (firstTruthy [d.error, d.Error]) then .str "error"
    else .str "processing"

/-- Modelled from the amended C5 wording: progress is accepted only if
numeric, else defaults to 0. -/
def refProgress (d : StatusData) : Int :=
  match d.progress with
  | some (.num n) => n
  | _ => 0

/-- Modelled from the amended C5 wording: the message the poller rejects
with on an error status is the first truthy error value, converted to a
string, else the generic message. -/
def refRejectMsg (d : StatusData) : String :=
  match firstTruthy [d.error, d.Error] with
  | some v => jvalToString v
  | none => "Generation failed"

/-! ## Concrete response values used in witnesses and counterexamples -/

/-- A status response with the capitalized value Completed under the State
key and a raw timetables collection X. -/
def completedRawResponseCap (X : List JObj) : StatusData := { State := some (.str "Completed"), result := some { timetables_raw := some X } }

/-- A status response with the lowercase value completed under the State
key and a raw timetables collection X. -/
def completedRawResponse (X : List JObj) : StatusData := { State := some (.str "completed"), result := some { timetables_raw := some X } }

/-- A one-entry timetable collection. -/
def sampleTimetables : List JObj := [[("title", JVal.str "A")]]

/-- A processing response reporting progress 5. -/
def processing5 : StatusData := { status := some (.str "processing"), progress := some (.num 5) }

/-- A processing response reporting progress 80. -/
def processing80 : StatusData := { status := some (.str "processing"), progress := some (.num 80) }

/-- A processing response reporting progress 40. -/
def processing40 : StatusData := { status := some (.str "processing"), progress := some (.num 40) }

/-- A processing response with the capitalized status value Processing. -/
def processingCap : StatusData := { status := some (.str "Processing") }

/-- A response with no status key and the error message w-err. -/
def errResponseW : StatusData := { error := some (.str "w-err") }

/-- A response with no status key and the error message x. -/
def errResponseX : StatusData := { error := some (.str "x") }

/-- A response with no status key and the error message boom. -/
def errResponseBoom : StatusData := { error := some (.str "boom") }

/-- A response with no status key and an empty-string error value. -/
def emptyErrorResponse : StatusData := { error := some (.str "") }

/-! ## Lemmas about the retry wrapper -/

theorem retryGo_out {α : Type} (outcomes : Nat → ReqOutcome α) (retries : Int)
    (i : Nat) (h : ¬ ((i : Int) < retries)) :
    retryGo outcomes retries i = ⟨i, [], .resolved none⟩ := by
  rw [retryGo]
  simp [h]

theorem retryGo_success {α : Type} (outcomes : Nat → ReqOutcome α) (retries : Int)
    (i : Nat) (v : α) (h : (i : Int) < retries) (hv : outcomes i = .success v) :
    retryGo outcomes retries i = ⟨i + 1, [], .resolved (some v)⟩ := by
  rw [retryGo]
  simp [h, hv]

theorem retryGo_last {α : Type} (outcomes : Nat → ReqOutcome α) (retries : Int)
    (i : Nat) (m : String) (_h : (i : Int) < retries) (hl : (i : Int) = retries - 1)
    (hm : outcomes i = .failure m) :
    retryGo outcomes retries i = ⟨i + 1, [], .rejected m⟩ := by
  rw [retryGo]
  simp only [hm, hl]
  simp

theorem retryGo_transient {α : Type} (outcomes : Nat → ReqOutcome α) (retries : Int)
    (i : Nat) (m : String) (h : (i : Int) < retries) (hl : (i : Int) ≠ retries - 1)
    (hm : outcomes i = .failure m) (ht : transientMsg m = true) :
    retryGo outcomes retries i =
      ⟨(retryGo outcomes retries (i + 1)).invocations,
        1000 * (i + 1) :: (retryGo outcomes retries (i + 1)).delays,
        (retryGo outcomes retries (i + 1)).outcome⟩ := by
  rw [retryGo]
  simp [h, hm, hl, ht]

theorem retryGo_nontransient {α : Type} (outcomes : Nat → ReqOutcome α) (retries : Int)
    (i : Nat) (m : String) (h : (i : Int) < retries) (hl : (i : Int) ≠ retries - 1)
    (hm : outcomes i = .failure m) (ht : transientMsg m = false) :
    retryGo outcomes retries i = ⟨i + 1, [], .rejected m⟩ := by
  rw [retryGo]
  simp [h, hm, hl, ht]

/-! ## Claim C2 -/

/-- C2: with the default budget of 3, the retry wrapper invokes the request
function min(retries, attempts-until-success) times with waits of 1000ms,
2000ms, ... between successive attempts when the failures match the
transient-connectivity substrings; a non-matching failure stops the loop at
once (so a first-invocation non-matching failure means exactly one
invocation) and propagates; on exhausting the budget the last error
propagates unchanged. -/
theorem retry_wrapper_behavior {α : Type} (outcomes : Nat → ReqOutcome α) :
    (∀ k v, k < 3 →
      (∀ j, j < k → ∃ m, outcomes j = .failure m ∧ transientMsg m = true) →
      outcomes k = .success v →
      makeRequestWithRetry outcomes 3 =
        ⟨k + 1, (List.range k).map (fun j => 1000 * (j + 1)), .resolved (some v)⟩) ∧
    ((∀ j, j < 3 → ∃ m, outcomes j = .failure m ∧ transientMsg m = true) →
      ∃ m2, outcomes 2 = .failure m2 ∧
        makeRequestWithRetry outcomes 3 = ⟨3, [1000, 2000], .rejected m2⟩) ∧
    (∀ k m, k < 2 →
      (∀ j, j < k → ∃ m', outcomes j = .failure m' ∧ transientMsg m' = true) →
      outcomes k = .failure m → transientMsg m = false →
      makeRequestWithRetry outcomes 3 =
        ⟨k + 1, (List.range k).map (fun j => 1000 * (j + 1)), .rejected m⟩) := by
  refine ⟨?_, ?_, ?_⟩
  · intro k v hk hts hv
    unfold makeRequestWithRetry
    interval_cases k
    · rw [retryGo_success outcomes 3 0 v (by norm_num) hv]
      simp
    · obtain ⟨m0, hm0, ht0⟩ := hts 0 (by norm_num)
      rw [retryGo_transient outcomes 3 0 m0 (by norm_num) (by norm_num) hm0 ht0,
        retryGo_success outcomes 3 1 v (by norm_num) hv]
      simp [List.range_succ]
    · obtain ⟨m0, hm0, ht0⟩ := hts 0 (by norm_num)
      obtain ⟨m1, hm1, ht1⟩ := hts 1 (by norm_num)
      rw [retryGo_transient outcomes 3 0 m0 (by norm_num) (by norm_num) hm0 ht0,
        retryGo_transient outcomes 3 1 m1 (by norm_num) (by norm_num) hm1 ht1,
        retryGo_success outcomes 3 2 v (by norm_num) hv]
      simp [List.range_succ]
  · intro hts
    obtain ⟨m0, hm0, ht0⟩ := hts 0 (by norm_num)
    obtain ⟨m1, hm1, ht1⟩ := hts 1 (by norm_num)
    obtain ⟨m2, hm2, _⟩ := hts 2 (by norm_num)
    refine ⟨m2, hm2, ?_⟩
    unfold makeRequestWithRetry
    rw [retryGo_transient outcomes 3 0 m0 (by norm_num) (by norm_num) hm0 ht0,
      retryGo_transient outcomes 3 1 m1 (by norm_num) (by norm_num) hm1 ht1,
      retryGo_last outcomes 3 2 m2 (by norm_num) (by norm_num) hm2]
  · intro k m hk hts hm ht
    unfold makeRequestWithRetry
    interval_cases k
    · rw [retryGo_nontransient outcomes 3 0 m (by norm_num) (by norm_num) hm ht]
      simp
    · obtain ⟨m0, hm0, ht0⟩ := hts 0 (by norm_num)
      rw [retryGo_transient outcomes 3 0 m0 (by norm_num) (by norm_num) hm0 ht0,
        retryGo_nontransient outcomes 3 1 m (by norm_num) (by norm_num) hm ht]
      simp [List.range_succ]

/-- C2 witness: a request that fails once with a transient network message
and then succeeds is invoked exactly twice, with a single 1000ms wait. -/
theorem retry_wrapper_behavior_witness :
    makeRequestWithRetry
      (fun n => if n = 0 then ReqOutcome.failure "Cannot reach backend server." else .success 7) 3 =
      ⟨2, [1000], .resolved (some 7)⟩ := by
  have h := (retry_wrapper_behavior
    (fun n => if n = 0 then ReqOutcome.failure "Cannot reach backend server." else .success 7)).1
    1 7 (by norm_num)
    (fun j hj => by
      have hj0 : j = 0 := by omega
      subst hj0
      exact ⟨"Cannot reach backend server.", rfl, by decide⟩)
    rfl
  simpa using h

/-! ## Claim C10 -/

/-- C10: a retry budget of zero or less resolves with an absent value
without ever invoking the request function. -/
theorem retry_wrapper_zero_budget {α : Type} (outcomes : Nat → ReqOutcome α)
    (retries : Int) (h : retries ≤ 0) :
    makeRequestWithRetry outcomes retries = ⟨0, [], .resolved none⟩ := by
  unfold makeRequestWithRetry
  exact retryGo_out outcomes retries 0 (by omega)

/-- C10 witness: budget 0 on an always-failing request makes no invocation
and resolves with an absent value. -/
theorem retry_wrapper_zero_budget_witness :
    makeRequestWithRetry (fun _ => ReqOutcome.failure "boom") 0 =
      ⟨0, [], .resolved (none : Option Nat)⟩ :=
  retry_wrapper_zero_budget (fun _ => ReqOutcome.failure "boom") 0 (by norm_num)

/-! ## Lemmas about the polling loop -/

theorem checkStatus_err (resp : Nat → PollResponse) (a : Nat) (m : String)
    (h : resp a = .err m) :
    checkStatus resp a =
      ⟨a + 1, [], .rejected (if strIncludes m "CORS" then corsRejectMsg else m)⟩ := by
  rw [checkStatus]
  simp [h]

theorem checkStatus_completed (resp : Nat → PollResponse) (a : Nat) (d : StatusData)
    (h : resp a = .ok d) (hc : isStr (normalizeStatus d).status "completed" = true) :
    checkStatus resp a =
      ⟨a + 1, [pollCall d, ⟨100, "Completed"⟩],
        .resolved ((normalizeStatus d).result.map mergeResult)⟩ := by
  rw [checkStatus]
  simp [h, hc]

theorem checkStatus_errstatus (resp : Nat → PollResponse) (a : Nat) (d : StatusData)
    (h : resp a = .ok d) (hc : isStr (normalizeStatus d).status "completed" = false)
    (he : isStr (normalizeStatus d).status "error" = true) :
    checkStatus resp a =
      ⟨a + 1, [pollCall d], .rejected (rejectErrMsg (normalizeStatus d).error)⟩ := by
  rw [checkStatus]
  simp [h, hc, he]

theorem checkStatus_timeout (resp : Nat → PollResponse) (a : Nat) (d : StatusData)
    (h : resp a = .ok d) (hc : isStr (normalizeStatus d).status "completed" = false)
    (he : isStr (normalizeStatus d).status "error" = false)
    (ha : a + 1 ≥ maxAttempts) :
    checkStatus resp a = ⟨a + 1, [pollCall d], .rejected timeoutMsg⟩ := by
  rw [checkStatus]
  simp [h, hc, he, ha]

theorem checkStatus_next (resp : Nat → PollResponse) (a : Nat) (d : StatusData)
    (h : resp a = .ok d) (hc : isStr (normalizeStatus d).status "completed" = false)
    (he : isStr (normalizeStatus d).status "error" = false)
    (ha : a + 1 < maxAttempts) :
    checkStatus resp a =
      ⟨(checkStatus resp (a + 1)).polls,
        pollCall d :: (checkStatus resp (a + 1)).callbacks,
        (checkStatus resp (a + 1)).outcome⟩ := by
  rw [checkStatus]
  have ha' : ¬ (a + 1 ≥ maxAttempts) := by omega
  simp [h, hc, he, ha']

theorem checkStatus_timeout_forever (resp : Nat → PollResponse) :
    ∀ k a, maxAttempts - a ≤ k → a < maxAttempts →
    (∀ n, a ≤ n → nonTerminalOk (resp n)) →
    (checkStatus resp a).polls = maxAttempts ∧
      (checkStatus resp a).outcome = .rejected timeoutMsg := by
  intro k
  induction k with
  | zero =>
    intro a hk ha _
    omega
  | succ k ih =>
    intro a _hk ha hnt
    obtain ⟨d, hd, hc, he⟩ := hnt a le_rfl
    by_cases hlast : a + 1 ≥ maxAttempts
    · rw [checkStatus_timeout resp a d hd hc he hlast]
      constructor
      · simp
        omega
      · rfl
    · push_neg at hlast
      rw [checkStatus_next resp a d hd hc he hlast]
      have := ih (a + 1) (by omega) (by omega) (fun n hn => hnt n (by omega))
      exact this

theorem checkStatus_polls_le (resp : Nat → PollResponse) :
    ∀ k a, maxAttempts - a ≤ k → a < maxAttempts →
    (checkStatus resp a).polls ≤ maxAttempts := by
  intro k
  induction k with
  | zero =>
    intro a hk ha
    omega
  | succ k ih =>
    intro a _hk ha
    match hr : resp a with
    | .err m =>
      rw [checkStatus_err resp a m hr]
      simpa using ha
    | .ok d =>
      by_cases hc : isStr (normalizeStatus d).status "completed" = true
      · rw [checkStatus_completed resp a d hr hc]
        simpa using ha
      · rw [Bool.not_eq_true] at hc
        by_cases he : isStr (normalizeStatus d).status "error" = true
        · rw [checkStatus_errstatus resp a d hr hc he]
          simpa using ha
        · rw [Bool.not_eq_true] at he
          by_cases hlast : a + 1 ≥ maxAttempts
          · rw [checkStatus_timeout resp a d hr hc he hlast]
            simpa using ha
          · push_neg at hlast
            rw [checkStatus_next resp a d hr hc he hlast]
            exact ih (a + 1) (by omega) (by omega)

/-! ## Claim C3 -/

/-- C3: when every poll returns a non-terminal status record, the poller
issues exactly 120 polls and then rejects with the timeout message; and no
polling loop ever issues more than 120 polls. -/
theorem poller_timeout_at_120 (resp : Nat → PollResponse)
    (hnt : ∀ n, nonTerminalOk (resp n)) :
    (pollForCompletion resp).polls = 120 ∧
      (pollForCompletion resp).outcome = .rejected "Generation timeout - please try again" ∧
      ∀ resp2 : Nat → PollResponse, (pollForCompletion resp2).polls ≤ 120 := by
  have h := checkStatus_timeout_forever resp maxAttempts 0 (by simp)
    (by simp [maxAttempts]) (fun n _ => hnt n)
  refine ⟨h.1, h.2, ?_⟩
  intro resp2
  exact checkStatus_polls_le resp2 maxAttempts 0 (by simp) (by simp [maxAttempts])

/-- C3 witness: a server that always answers with status Processing causes
exactly 120 polls and a timeout rejection. -/
theorem poller_timeout_at_120_witness :
    (pollForCompletion (fun _ => .ok { status := some (.str "Processing") })).polls = 120 ∧
      (pollForCompletion (fun _ => .ok { status := some (.str "Processing") })).outcome =
        .rejected "Generation timeout - please try again" ∧
      ∀ resp2 : Nat → PollResponse, (pollForCompletion resp2).polls ≤ 120 :=
  poller_timeout_at_120 (fun _ => .ok { status := some (.str "Processing") })
    (fun _ => ⟨{ status := some (.str "Processing") }, rfl, by rfl, by rfl⟩)


/-! ## Claim C1 -/

/-- C1 counterexample: a status response with the capitalized value
Completed under the State key is not recognized as terminal (the poller
compares against the lowercase literal), so a server that always answers
this way drives the poller into its timeout rejection instead of a
resolution with the timetables_raw collection. -/
theorem completed_capitalized_not_terminal :
    (pollForCompletion (fun _ => .ok (completedRawResponseCap sampleTimetables))).outcome =
      .rejected "Generation timeout - please try again" :=
  (checkStatus_timeout_forever (fun _ => .ok (completedRawResponseCap sampleTimetables))
    maxAttempts 0 (by simp) (by simp [maxAttempts])
    (fun n _ => ⟨completedRawResponseCap sampleTimetables, rfl, by rfl, by rfl⟩)).2

/-- C1 (amended): when a status poll returns the lowercase status value
completed under the State key together with result.timetables_raw = X, the
poller resolves at once with a merged result whose timetables field is
exactly X (the raw collection aliased); the capitalized value Completed is
not recognized as terminal because the comparison is with the lowercase
literal. -/
theorem poll_completed_raw_alias (resp : Nat → PollResponse) (X : List JObj)
    (h : resp 0 = .ok (completedRawResponse X)) :
    ∃ r, (pollForCompletion resp).outcome = .resolved (some r) ∧
      r.timetables = some X ∧ r.timetables_raw = some X := by
  unfold pollForCompletion
  rw [checkStatus_completed resp 0 _ h (by rfl)]
  refine ⟨mergeResult { timetables_raw := some X }, ?_, ?_, ?_⟩
  · rfl
  · simp [mergeResult]
  · simp [mergeResult]

/-- C1 witness: a concrete one-element raw collection is aliased as the
timetables field of the resolved result. -/
theorem poll_completed_raw_alias_witness :
    ∃ r, (pollForCompletion (fun _ => .ok (completedRawResponse sampleTimetables))).outcome =
        .resolved (some r) ∧
      r.timetables = some sampleTimetables ∧ r.timetables_raw = some sampleTimetables :=
  poll_completed_raw_alias _ sampleTimetables rfl

/-! ## Claim C4 -/

theorem checkStatus_callbacks_mem (resp : Nat → PollResponse) :
    ∀ k a, maxAttempts - a ≤ k → ∀ c ∈ (checkStatus resp a).callbacks,
      (∃ n d, resp n = .ok d ∧ c = pollCall d) ∨ c = ⟨100, "Completed"⟩ := by
  intro k
  induction k with
  | zero =>
    intro a hk c hc
    match hr : resp a with
    | .err m =>
      rw [checkStatus_err resp a m hr] at hc
      simp at hc
    | .ok d =>
      by_cases hcp : isStr (normalizeStatus d).status "completed" = true
      · rw [checkStatus_completed resp a d hr hcp] at hc
        simp at hc
        rcases hc with hc | hc
        · exact .inl ⟨a, d, hr, hc⟩
        · exact .inr hc
      · rw [Bool.not_eq_true] at hcp
        by_cases he : isStr (normalizeStatus d).status "error" = true
        · rw [checkStatus_errstatus resp a d hr hcp he] at hc
          simp at hc
          exact .inl ⟨a, d, hr, hc⟩
        · rw [Bool.not_eq_true] at he
          have hta : a + 1 ≥ maxAttempts := by omega
          rw [checkStatus_timeout resp a d hr hcp he hta] at hc
          simp at hc
          exact .inl ⟨a, d, hr, hc⟩
  | succ k ih =>
    intro a _hk c hc
    match hr : resp a with
    | .err m =>
      rw [checkStatus_err resp a m hr] at hc
      simp at hc
    | .ok d =>
      by_cases hcp : isStr (normalizeStatus d).status "completed" = true
      · rw [checkStatus_completed resp a d hr hcp] at hc
        simp at hc
        rcases hc with hc | hc
        · exact .inl ⟨a, d, hr, hc⟩
        · exact .inr hc
      · rw [Bool.not_eq_true] at hcp
        by_cases he : isStr (normalizeStatus d).status "error" = true
        · rw [checkStatus_errstatus resp a d hr hcp he] at hc
          simp at hc
          exact .inl ⟨a, d, hr, hc⟩
        · rw [Bool.not_eq_true] at he
          by_cases hta : a + 1 ≥ maxAttempts
          · rw [checkStatus_timeout resp a d hr hcp he hta] at hc
            simp at hc
            exact .inl ⟨a, d, hr, hc⟩
          · push_neg at hta
            rw [checkStatus_next resp a d hr hcp he hta] at hc
            simp at hc
            rcases hc with hc | hc
            · exact .inl ⟨a, d, hr, hc⟩
            · exact ih (a + 1) (by omega) c hc

/-- C4 counterexample: on a poll reporting progress 5 the observer is
invoked with percentage 5, below the claimed floor of 30, so the value
handed to the observer is not clamped to the range 30..100. -/
theorem observer_receives_unclamped_progress :
    (pollForCompletion (fun _ => .ok processing5)).callbacks.head? =
      some ⟨5, "Processing..."⟩ ∧ ¬ (30 ≤ (5 : Int)) := by
  constructor
  · unfold pollForCompletion
    rw [checkStatus_next _ 0 processing5 rfl (by rfl) (by rfl) (by simp [maxAttempts])]
    rfl
  · norm_num

/-- C4 (amended): on every poll the observer is invoked with the server's
raw normalized progress value (pollCall), unclamped, except for the final
100-percent completion call; the clamping to the range 30..100 is done by
the UI progress callback, whose stored value always lies in that range. -/
theorem observer_value_provenance_and_ui_clamp (resp : Nat → PollResponse)
    (c : ProgressUpdate) (hc : c ∈ (pollForCompletion resp).callbacks) :
    ((∃ n d, resp n = .ok d ∧ c = pollCall d) ∨ c = ⟨100, "Completed"⟩) ∧
      30 ≤ uiStoredProgress c.percentage ∧ uiStoredProgress c.percentage ≤ 100 := by
  refine ⟨checkStatus_callbacks_mem resp maxAttempts 0 (by simp) c hc, ?_, ?_⟩
  · unfold uiStoredProgress
    omega
  · unfold uiStoredProgress
    omega

/-- C4 witness: the single observer call of a run that fails on its first
poll carries the raw default progress 0, and the UI clamp stores a value in
the range 30..100. -/
theorem observer_value_provenance_witness :
    ((∃ n d, (fun (_ : Nat) => PollResponse.ok errResponseW) n = .ok d ∧
        (⟨0, "Processing..."⟩ : ProgressUpdate) = pollCall d) ∨
      (⟨0, "Processing..."⟩ : ProgressUpdate) = ⟨100, "Completed"⟩) ∧
      30 ≤ uiStoredProgress (0 : Int) ∧ uiStoredProgress (0 : Int) ≤ 100 := by
  have h := observer_value_provenance_and_ui_clamp
    (fun _ => .ok errResponseW) ⟨0, "Processing..."⟩
    (by
      unfold pollForCompletion
      rw [checkStatus_errstatus _ 0 errResponseW rfl (by rfl) (by rfl)]
      simp [pollCall, normalizeStatus, errResponseW, jsOr, optTruthy, jsTruthy])
  simpa using h

/-! ## Claim C5 -/

theorem opt_truthy_some (o : Option JVal) (h : optTruthy o = true) :
    ∃ v, o = some v ∧ jsTruthy v = true := by
  cases o with
  | none => simp [optTruthy] at h
  | some v => exact ⟨v, rfl, h⟩

theorem firstTruthy3_eq_jsOr (a b c : Option JVal)
    (h : optTruthy (jsOr (jsOr a b) c) = true) :
    firstTruthy [a, b, c] = jsOr (jsOr a b) c := by
  by_cases ha : optTruthy a <;> by_cases hb : optTruthy b <;>
    simp_all [firstTruthy, jsOr]

theorem firstTruthy3_none_of (a b c : Option JVal)
    (h : optTruthy (jsOr (jsOr a b) c) = false) :
    firstTruthy [a, b, c] = none := by
  by_cases ha : optTruthy a <;> by_cases hb : optTruthy b <;>
    simp_all [firstTruthy, jsOr]

theorem optTruthy_firstTruthy_pair (a b : Option JVal) :
    optTruthy (firstTruthy [a, b]) = optTruthy (jsOr a b) := by
  by_cases ha : optTruthy a <;> by_cases hb : optTruthy b <;>
    simp_all [firstTruthy, jsOr, optTruthy]

theorem rejectErrMsg_jsOr_pair (a b : Option JVal) :
    rejectErrMsg (jsOr a b) =
      (match firstTruthy [a, b] with
        | some v => jvalToString v
        | none => "Generation failed") := by
  by_cases ha : optTruthy a
  · obtain ⟨v, hv, htv⟩ := opt_truthy_some a ha
    subst hv
    simp [jsOr, firstTruthy, rejectErrMsg, ha, htv]
  · rw [Bool.not_eq_true] at ha
    by_cases hb : optTruthy b
    · obtain ⟨v, hv, htv⟩ := opt_truthy_some b hb
      subst hv
      simp [jsOr, firstTruthy, rejectErrMsg, ha, hb, htv]
    · rw [Bool.not_eq_true] at hb
      cases b with
      | none => simp [jsOr, firstTruthy, rejectErrMsg, ha, hb]
      | some v =>
        have hv : jsTruthy v = false := by simpa [optTruthy] using hb
        simp [jsOr, firstTruthy, rejectErrMsg, ha, hb, hv]

/-- C5 counterexample: a response with no status field and a non-null but
empty-string error value normalizes to processing, not to an error status
(truthiness, not presence, drives the inference), and a server always
answering this way drives the poller into its timeout rejection instead of
a rejection with that error message. -/
theorem empty_error_normalizes_to_processing :
    emptyErrorResponse.status = none ∧
      emptyErrorResponse.error = some (.str "") ∧
      (normalizeStatus emptyErrorResponse).status = some (.str "processing") ∧
      (pollForCompletion (fun _ => .ok emptyErrorResponse)).outcome =
        .rejected "Generation timeout - please try again" := by
  refine ⟨rfl, rfl, rfl, ?_⟩
  exact (checkStatus_timeout_forever (fun _ => .ok emptyErrorResponse)
    maxAttempts 0 (by simp) (by simp [maxAttempts])
    (fun n _ => ⟨emptyErrorResponse, rfl, by rfl, by rfl⟩)).2

/-- C5 (amended): the normalization equals the reference definition with
truthiness in place of presence: the status is the first truthy of the
keys status, State, state; progress is accepted only if numeric, else 0;
the error is read as the first truthy of the keys error, Error; with no
truthy status, a present result infers completed, else a truthy error
infers error, else processing; and for a response with no status keys, no
result and a truthy (non-empty string) error, the poller rejects with that
error message. -/
theorem status_normalization_matches_reference (d : StatusData) :
    (normalizeStatus d).status = some (refNormStatus d) ∧
      (normalizeStatus d).progress = refProgress d ∧
      rejectErrMsg (normalizeStatus d).error = refRejectMsg d ∧
      (∀ (resp : Nat → PollResponse) (m : String),
        resp 0 = .ok d → d.status = none → d.State = none → d.state = none →
        d.result = none → d.error = some (.str m) → m ≠ "" →
        (pollForCompletion resp).outcome = .rejected m) := by
  refine ⟨?_, rfl, ?_, ?_⟩
  · by_cases h : optTruthy (jsOr (jsOr d.status d.State) d.state)
    · obtain ⟨v, hv, htv⟩ := opt_truthy_some _ h
      rw [refNormStatus, firstTruthy3_eq_jsOr _ _ _ h, hv]
      simp [normalizeStatus, hv, htv, optTruthy]
    · rw [Bool.not_eq_true] at h
      rw [refNormStatus, firstTruthy3_none_of _ _ _ h]
      have hct : optTruthy (some (JVal.str "completed")) = true := rfl
      have het : optTruthy (some (JVal.str "error")) = true := rfl
      by_cases hr : d.result.isSome
      · simp [normalizeStatus, h, hr, hct]
      · by_cases he : optTruthy (jsOr d.error d.Error)
        · simp [normalizeStatus, h, hr, he, het, optTruthy_firstTruthy_pair]
        · rw [Bool.not_eq_true] at he
          simp [normalizeStatus, h, hr, he, optTruthy_firstTruthy_pair]
  · rw [refRejectMsg]
    have hne : (normalizeStatus d).error = jsOr d.error d.Error := rfl
    rw [hne, rejectErrMsg_jsOr_pair]
  · intro resp m h0 hs hS hsl hres herr hm
    have htm : jsTruthy (.str m) = true := by simp [jsTruthy, hm]
    have hst : (normalizeStatus d).status = some (.str "error") := by
      have het : jsTruthy (JVal.str "error") = true := rfl
      simp [normalizeStatus, hs, hS, hsl, hres, herr, jsOr, optTruthy, htm, het]
    have hce : isStr (normalizeStatus d).status "completed" = false := by
      rw [hst]
      rfl
    have hee : isStr (normalizeStatus d).status "error" = true := by
      rw [hst]
      rfl
    unfold pollForCompletion
    rw [checkStatus_errstatus resp 0 d h0 hce hee]
    have herrv : (normalizeStatus d).error = some (.str m) := by
      simp [normalizeStatus, herr, jsOr, optTruthy, htm]
    rw [herrv]
    simp [rejectErrMsg, htm, jvalToString]

/-- C5 witness: a response carrying only the error message boom makes the
poller reject with exactly that message. -/
theorem status_normalization_matches_reference_witness :
    (pollForCompletion (fun _ => .ok errResponseBoom)).outcome = .rejected "boom" :=
  (status_normalization_matches_reference errResponseBoom).2.2.2
    (fun _ => .ok errResponseBoom) "boom" rfl rfl rfl rfl rfl rfl (by decide)

/-! ## Claim C6 -/

/-- C6 counterexample: with the uppercase format PDF the request body is
case-folded to pdf, but the filename extension comparison is against the
raw format value, so the synthesized filename ends in xlsx, not pdf. -/
theorem export_uppercase_pdf_gets_xlsx :
    exportRequestFormat "PDF" = "pdf" ∧
      exportFilename "2026-10-11" "PDF" = "timetable_2026-10-11.xlsx" ∧
      ¬ (".pdf".data <:+ (exportFilename "2026-10-11" "PDF").data) ∧
      (".xlsx".data <:+ (exportFilename "2026-10-11" "PDF").data) := by
  refine ⟨?_, rfl, by decide, by decide⟩
  rfl

/-- C6 (amended): the format sent to the export endpoint is case-folded to
lowercase, but the filename extension is chosen by a case-sensitive
comparison of the raw format value with the lowercase literal pdf: exactly
the string pdf yields the pdf extension and every other value, including
PDF in upper case, yields the xlsx extension. -/
theorem export_filename_extension (ts format : String) :
    exportRequestFormat format = lowerString format ∧
      exportFilename ts format =
        "timetable_" ++ ts ++ "." ++ (if format = "pdf" then "pdf" else "xlsx") ∧
      (format ≠ "pdf" → exportFilename ts format = "timetable_" ++ ts ++ "." ++ "xlsx") := by
  refine ⟨rfl, rfl, ?_⟩
  intro h
  simp [exportFilename, h]

/-- C6 witness: the amended rule evaluated at the uppercase format PDF. -/
theorem export_filename_extension_witness :
    exportRequestFormat "PDF" = lowerString "PDF" ∧
      exportFilename "d" "PDF" =
        "timetable_" ++ "d" ++ "." ++ (if "PDF" = "pdf" then "pdf" else "xlsx") ∧
      ("PDF" ≠ "pdf" → exportFilename "d" "PDF" = "timetable_" ++ "d" ++ "." ++ "xlsx") :=
  export_filename_extension "d" "PDF"

/-! ## Claim C7 -/

theorem firstTruthy3_some (a b c : Option JVal) (v : JVal)
    (h : firstTruthy [a, b, c] = some v) :
    jsOr (jsOr a b) c = some v ∧ jsTruthy v = true := by
  by_cases ha : optTruthy a <;> by_cases hb : optTruthy b <;>
    by_cases hc : optTruthy c <;>
      simp_all [firstTruthy, jsOr] <;> subst h <;> simp_all [optTruthy]

theorem firstTruthy3_none_jsOr (a b c : Option JVal)
    (h : firstTruthy [a, b, c] = none) :
    optTruthy (jsOr (jsOr a b) c) = false := by
  by_cases ha : optTruthy a <;> by_cases hb : optTruthy b <;>
    by_cases hc : optTruthy c <;> simp_all [firstTruthy, jsOr, optTruthy]

/-- C7 counterexample: an upload response whose job identifier appears only
under the nested meta object makes uploadFile fail with its fixed missing
identifier message; no meta fallback happens inside the upload operation
and the message does not carry the response. -/
theorem upload_meta_only_id_fails :
    uploadFile { meta := some { upload_id := some (.str "abc") } } =
      .error "File upload failed: upload_id not returned by server" := rfl

/-- C7 (amended): the upload operation itself reads the job identifier
only from the response-root keys upload_id, uploadId, id in that
precedence (first truthy value) and fails with the fixed message
File upload failed: upload_id not returned by server when none is truthy,
regardless of any nested meta object; the fallback to the keys upload_id,
uploadId, id under a meta object, and the error carrying the serialized
value, exist only in the upload-id re-extraction of the UI component,
which runs on the wrapper object uploadFile already resolved with. -/
theorem upload_id_extraction (dta : UploadData) (r : UploadOk) :
    (∀ v, firstTruthy [dta.upload_id, dta.uploadId, dta.id] = some v →
      uploadFile dta = .ok ⟨v, dta⟩) ∧
      (firstTruthy [dta.upload_id, dta.uploadId, dta.id] = none →
        uploadFile dta = .error "File upload failed: upload_id not returned by server") ∧
      (jsTruthy r.uploadId = true → extractCurrentUploadId r = some r.uploadId) ∧
      (jsTruthy r.uploadId = false →
        extractCurrentUploadId r = jsOr (jsOr r.meta.upload_id r.meta.uploadId) r.meta.id) := by
  refine ⟨?_, ?_, ?_, ?_⟩
  · intro v hv
    obtain ⟨hchain, htv⟩ := firstTruthy3_some _ _ _ v hv
    simp [uploadFile, hchain, htv]
  · intro h
    have hf := firstTruthy3_none_jsOr _ _ _ h
    rcases hj : jsOr (jsOr dta.upload_id dta.uploadId) dta.id with _ | v
    · simp [uploadFile, hj]
    · rw [hj] at hf
      have hv : jsTruthy v = false := by simpa [optTruthy] using hf
      simp [uploadFile, hj, hv]
  · intro h
    simp [extractCurrentUploadId, jsOr, optTruthy, h]
  · intro h
    simp [extractCurrentUploadId, jsOr, optTruthy, h]

/-- C7 witness: a root-level uploadId key in second precedence position is
found by the upload operation, and the UI re-extraction returns the
wrapper value it already holds. -/
theorem upload_id_extraction_witness :
    uploadFile { uploadId := some (.str "u1") } =
      .ok ⟨.str "u1", { uploadId := some (.str "u1") }⟩ ∧
      extractCurrentUploadId ⟨.str "u1", { uploadId := some (.str "u1") }⟩ =
        some (.str "u1") := by
  have h := upload_id_extraction { uploadId := some (.str "u1") }
    ⟨.str "u1", { uploadId := some (.str "u1") }⟩
  exact ⟨h.1 (.str "u1") rfl, h.2.2.1 rfl⟩


/-! ## Claim C9 -/

theorem getField_map_replace (o : JObj) (k : String) (v : JVal)
    (h : (getField o k).isSome) :
    getField (o.map (fun p => if p.1 = k then (k, v) else p)) k = some v := by
  induction o with
  | nil => simp [getField] at h
  | cons p rest ih =>
    obtain ⟨k', v'⟩ := p
    simp only [List.map_cons]
    by_cases hk : k' = k
    · subst hk
      rw [show (if ((k', v') : String × JVal).1 = k' then (k', v) else (k', v')) = (k', v) by
        simp]
      rw [getField]
      simp
    · rw [show (if ((k', v') : String × JVal).1 = k then (k, v) else (k', v')) = (k', v') by
        simp [hk]]
      rw [getField] at h
      simp only [hk, if_false] at h
      rw [getField]
      simp only [hk, if_false]
      exact ih h

theorem getField_append_new (o : JObj) (k : String) (v : JVal)
    (h : getField o k = none) :
    getField (o ++ [(k, v)]) k = some v := by
  induction o with
  | nil => simp [getField]
  | cons p rest ih =>
    obtain ⟨k', v'⟩ := p
    rw [getField] at h
    by_cases hk : k' = k
    · simp [hk] at h
    · simp only [hk, if_false] at h
      simp only [List.cons_append]
      rw [getField]
      simp only [hk, if_false]
      exact ih h

theorem getField_spreadSet (o : JObj) (k : String) (v : JVal) :
    getField (spreadSet o k v) k = some v := by
  unfold spreadSet
  by_cases h : (getField o k).isSome
  · simp only [h, if_true]
    exact getField_map_replace o k v h
  · simp only [h, if_false]
    exact getField_append_new o k v (by
      rcases hg : getField o k with _ | w
      · rfl
      · rw [hg] at h
        simp at h)

theorem mergeRows_length (P : List (Option ParsedEntry)) :
    ∀ (T : List JObj) (i : Nat), (mergeRows P i T).length = T.length := by
  intro T
  induction T with
  | nil => intro i; rfl
  | cons t ts ih => intro i; simp [mergeRows, ih]

theorem mergeRows_get? (P : List (Option ParsedEntry)) :
    ∀ (T : List JObj) (i j : Nat),
      (mergeRows P i T).get? j =
        (T.get? j).map (fun t => spreadSet t "rows" (rowsAt P (i + j))) := by
  intro T
  induction T with
  | nil => intro i j; simp [mergeRows]
  | cons t ts ih =>
    intro i j
    cases j with
    | zero => simp [mergeRows]
    | succ j =>
      simp only [mergeRows, List.get?_cons_succ]
      rw [ih (i + 1) j, show i + 1 + j = i + (j + 1) from by omega]

/-- C9: when a completed result carries both a timetables collection T and
a parsed_timetables collection P (of proper entries), the merge rule
produces a timetables collection of the same length as T in which every
index covered by P gets that parsed entry's rows value and every index
beyond P gets an empty rows array; a missing parsed entry never causes an
error. -/
theorem merge_rule_rows (T : List JObj) (P : List ParsedEntry) (r : ResultObj)
    (hT : r.timetables = some T) (hP : r.parsed_timetables = some (P.map some)) :
    ∃ M, (mergeResult r).timetables = some M ∧ M.length = T.length ∧
      (T.length = P.length → ∀ i p, P.get? i = some p →
        ∃ t', M.get? i = some t' ∧ getField t' "rows" = some p.rows) ∧
      (P.length < T.length → ∀ i, P.length ≤ i → i < T.length →
        ∃ t', M.get? i = some t' ∧ getField t' "rows" = some (JVal.arr [])) := by
  have hM : (mergeResult r).timetables = some (mergeRows (P.map some) 0 T) := by
    unfold mergeResult
    simp [hT, hP]
  refine ⟨mergeRows (P.map some) 0 T, hM, mergeRows_length _ _ _, ?_, ?_⟩
  · intro _ i p hp
    have hilt : i < T.length := by
      obtain ⟨hlen, _⟩ := List.get?_eq_some.mp hp
      omega
    have ht : T.get? i = some (T.get ⟨i, hilt⟩) := List.get?_eq_get hilt
    refine ⟨spreadSet (T.get ⟨i, hilt⟩) "rows" (rowsAt (P.map some) i), ?_, ?_⟩
    · rw [mergeRows_get? (P.map some) T 0 i, ht]
      simp
    · have hrows : rowsAt (P.map some) i = p.rows := by
        unfold rowsAt
        rw [List.get?_map, hp]
        rfl
      rw [hrows]
      exact getField_spreadSet _ "rows" p.rows
  · intro _ i hiP hiT
    have ht : T.get? i = some (T.get ⟨i, hiT⟩) := List.get?_eq_get hiT
    refine ⟨spreadSet (T.get ⟨i, hiT⟩) "rows" (rowsAt (P.map some) i), ?_, ?_⟩
    · rw [mergeRows_get? (P.map some) T 0 i, ht]
      simp
    · have hrows : rowsAt (P.map some) i = JVal.arr [] := by
        unfold rowsAt
        rw [List.get?_map]
        rw [List.get?_eq_none.mpr (by simpa using hiP)]
        rfl
      rw [hrows]
      exact getField_spreadSet _ "rows" (JVal.arr [])

/-- C9 witness: a two-entry timetables collection with a one-entry parsed
collection gets the parsed rows at index 0 and an empty rows array at
index 1. -/
theorem merge_rule_rows_witness :
    ∃ M, (mergeResult { timetables := some [[("title", JVal.str "A")], [("title", JVal.str "B")]], parsed_timetables := some ([(⟨JVal.str "r1"⟩ : ParsedEntry)].map some) }).timetables = some M ∧
      M.length = [[("title", JVal.str "A")], [("title", JVal.str "B")]].length ∧
      ([[("title", JVal.str "A")], [("title", JVal.str "B")]].length =
          [(⟨JVal.str "r1"⟩ : ParsedEntry)].length → ∀ i p,
        [(⟨JVal.str "r1"⟩ : ParsedEntry)].get? i = some p →
        ∃ t', M.get? i = some t' ∧ getField t' "rows" = some p.rows) ∧
      ([(⟨JVal.str "r1"⟩ : ParsedEntry)].length <
          [[("title", JVal.str "A")], [("title", JVal.str "B")]].length →
        ∀ i, [(⟨JVal.str "r1"⟩ : ParsedEntry)].length ≤ i →
          i < [[("title", JVal.str "A")], [("title", JVal.str "B")]].length →
          ∃ t', M.get? i = some t' ∧ getField t' "rows" = some (JVal.arr [])) :=
  merge_rule_rows [[("title", JVal.str "A")], [("title", JVal.str "B")]]
    [⟨JVal.str "r1"⟩] _ rfl rfl

/-! ## Claim C8 -/

theorem checkStatus_chain (resp : Nat → PollResponse)
    (hmono : ∀ m n dm dn, m ≤ n → resp m = .ok dm → resp n = .ok dn →
      (normalizeStatus dm).progress ≤ (normalizeStatus dn).progress)
    (hle : ∀ n d, resp n = .ok d → (normalizeStatus d).progress ≤ 100) :
    ∀ k a, maxAttempts - a ≤ k →
      List.Chain' (fun x y => x.percentage ≤ y.percentage) (checkStatus resp a).callbacks ∧
      ∀ c d, (checkStatus resp a).callbacks.head? = some c → resp a = .ok d →
        (normalizeStatus d).progress ≤ c.percentage := by
  intro k
  induction k with
  | zero =>
    intro a hk
    match hr : resp a with
    | .err m =>
      rw [checkStatus_err resp a m hr]
      refine ⟨by simp, ?_⟩
      intro c d hc _
      simp at hc
    | .ok d =>
      by_cases hcp : isStr (normalizeStatus d).status "completed" = true
      · rw [checkStatus_completed resp a d hr hcp]
        refine ⟨?_, ?_⟩
        · simp only [List.chain'_cons, List.chain'_singleton, and_true]
          exact hle a d hr
        · intro c d' hc hd'
          simp only [List.head?_cons, Option.some.injEq] at hc
          simp only [PollResponse.ok.injEq] at hd'
          subst hd'
          subst hc
          exact le_refl _
      · rw [Bool.not_eq_true] at hcp
        by_cases he : isStr (normalizeStatus d).status "error" = true
        · rw [checkStatus_errstatus resp a d hr hcp he]
          refine ⟨by simp, ?_⟩
          intro c d' hc hd'
          simp only [List.head?_cons, Option.some.injEq] at hc
          simp only [PollResponse.ok.injEq] at hd'
          subst hd'
          subst hc
          exact le_refl _
        · rw [Bool.not_eq_true] at he
          have hta : a + 1 ≥ maxAttempts := by omega
          rw [checkStatus_timeout resp a d hr hcp he hta]
          refine ⟨by simp, ?_⟩
          intro c d' hc hd'
          simp only [List.head?_cons, Option.some.injEq] at hc
          simp only [PollResponse.ok.injEq] at hd'
          subst hd'
          subst hc
          exact le_refl _
  | succ k ih =>
    intro a _hk
    match hr : resp a with
    | .err m =>
      rw [checkStatus_err resp a m hr]
      refine ⟨by simp, ?_⟩
      intro c d hc _
      simp at hc
    | .ok d =>
      by_cases hcp : isStr (normalizeStatus d).status "completed" = true
      · rw [checkStatus_completed resp a d hr hcp]
        refine ⟨?_, ?_⟩
        · simp only [List.chain'_cons, List.chain'_singleton, and_true]
          exact hle a d hr
        · intro c d' hc hd'
          simp only [List.head?_cons, Option.some.injEq] at hc
          simp only [PollResponse.ok.injEq] at hd'
          subst hd'
          subst hc
          exact le_refl _
      · rw [Bool.not_eq_true] at hcp
        by_cases he : isStr (normalizeStatus d).status "error" = true
        · rw [checkStatus_errstatus resp a d hr hcp he]
          refine ⟨by simp, ?_⟩
          intro c d' hc hd'
          simp only [List.head?_cons, Option.some.injEq] at hc
          simp only [PollResponse.ok.injEq] at hd'
          subst hd'
          subst hc
          exact le_refl _
        · rw [Bool.not_eq_true] at he
          by_cases hta : a + 1 ≥ maxAttempts
          · rw [checkStatus_timeout resp a d hr hcp he hta]
            refine ⟨by simp, ?_⟩
            intro c d' hc hd'
            simp only [List.head?_cons, Option.some.injEq] at hc
            simp only [PollResponse.ok.injEq] at hd'
            subst hd'
            subst hc
            exact le_refl _
          · push_neg at hta
            rw [checkStatus_next resp a d hr hcp he hta]
            obtain ⟨ihChain, ihHead⟩ := ih (a + 1) (by omega)
            refine ⟨?_, ?_⟩
            · rw [List.chain'_cons']
              refine ⟨?_, ihChain⟩
              intro y hy
              rw [Option.mem_def] at hy
              match hr2 : resp (a + 1) with
              | .err m2 =>
                rw [checkStatus_err resp (a + 1) m2 hr2] at hy
                simp at hy
              | .ok d2 =>
                have h1 : (normalizeStatus d).progress ≤ (normalizeStatus d2).progress :=
                  hmono a (a + 1) d d2 (by omega) hr hr2
                have h2 := ihHead y d2 hy hr2
                exact le_trans h1 h2
            · intro c d' hc hd'
              simp only [List.head?_cons, Option.some.injEq] at hc
              simp only [PollResponse.ok.injEq] at hd'
              subst hd'
              subst hc
              exact le_refl _

/-- C8 counterexample: a server that reports progress 80 on the first poll
and then fails produces the observer sequence 80 then 0, which regresses:
the client passes each poll's progress through with no memory of the
previous value. -/
theorem observer_progress_can_regress :
    (pollForCompletion
        (fun n => if n = 0 then PollResponse.ok processing80 else .ok errResponseX)).callbacks =
      [⟨80, "Processing..."⟩, ⟨0, "Processing..."⟩] ∧
      ¬ List.Chain' (fun x y => x.percentage ≤ y.percentage)
        (pollForCompletion
          (fun n => if n = 0 then PollResponse.ok processing80 else .ok errResponseX)).callbacks := by
  have hcb : (pollForCompletion
      (fun n => if n = 0 then PollResponse.ok processing80 else .ok errResponseX)).callbacks =
      [⟨80, "Processing..."⟩, ⟨0, "Processing..."⟩] := by
    unfold pollForCompletion
    rw [checkStatus_next _ 0 processing80 rfl (by rfl) (by rfl) (by simp [maxAttempts])]
    rw [checkStatus_errstatus _ 1 errResponseX rfl (by rfl) (by rfl)]
    rfl
  refine ⟨hcb, ?_⟩
  rw [hcb]
  simp only [List.chain'_cons, List.chain'_singleton, and_true]
  omega

/-- C8 (amended): the observer percentages of a polling loop are
non-decreasing provided the server's own normalized progress reports are
non-decreasing over the polls and bounded by 100; without that server-side
monotonicity the client reports regressions as-is, since every observer
call carries its own poll's progress value. -/
theorem observer_monotone_of_server_monotone (resp : Nat → PollResponse)
    (hmono : ∀ m n dm dn, m ≤ n → resp m = .ok dm → resp n = .ok dn →
      (normalizeStatus dm).progress ≤ (normalizeStatus dn).progress)
    (hle : ∀ n d, resp n = .ok d → (normalizeStatus d).progress ≤ 100) :
    List.Chain' (fun x y => x.percentage ≤ y.percentage)
      (pollForCompletion resp).callbacks :=
  (checkStatus_chain resp hmono hle maxAttempts 0 (by simp)).1

/-- C8 witness: a server constantly reporting progress 40 yields a
non-decreasing observer sequence. -/
theorem observer_monotone_of_server_monotone_witness :
    List.Chain' (fun x y => x.percentage ≤ y.percentage)
      (pollForCompletion (fun _ => .ok processing40)).callbacks :=
  observer_monotone_of_server_monotone (fun _ => .ok processing40)
    (fun m n dm dn _ h1 h2 => by
      cases h1
      cases h2
      exact le_refl _)
    (fun n d h => by
      cases h
      decide)
